import Mathlib

/-!
Shallow embedding of the r2dtools/githubscanner repository (package scanner,
file scanner.go) together with proofs about the claims of its specification.

Modelling conventions:
* Go machine integers that matter here (page numbers, the PerPage knob) are
  modelled as Lean Int; overflow is irrelevant at the ranges involved.
* Go errors are modelled as String (every error in the source is produced by
  errors.New or fmt.Errorf; callers only propagate or wrap them).
* The HTTP network is modelled by a Forge: a pure map from the request
  parameters (account, repository, per_page, page) of the two endpoints the
  scanner queries to an HttpResult.  The base URL only selects which server is
  spoken to, so it is folded into the Forge itself and is not repeated in the
  request records.
* Response bodies are modelled as either an unreadable stream, a byte blob
  that is not valid JSON, or a JSON value; the two decoders applied to bodies
  by the Go code (a JSON array of records on 200, the message object on
  non-200) are reproduced following encoding/json semantics for the concrete
  target shapes (unknown fields ignored, missing fields keep the zero value,
  null leaves a field unchanged, type mismatch is an error).
* The concurrent coordinator in ScanRepositories is modelled by explicitly
  passing the drain schedule: the list of outcomes (result items or worker
  errors), in the order in which the coordinator's select statement drains
  them.  ValidArrivals characterises which schedules the channel protocol can
  actually produce.  Pagination loops (for {...} in Go) take a fuel argument;
  a run that exhausts fuel returns none (the Go loop would still be running).
-/

/-- JSON values, used to model response bodies. -/
inductive Json where
  | null
  | bool (b : Bool)
  | num (n : Int)
  | str (s : String)
  | arr (elems : List Json)
  | obj (fields : List (String × Json))

/-- Go encoding/json semantics of decoding one string-typed struct field out
of an object's field list: keys are visited in order, a string value
overwrites the current value, a null value leaves it unchanged, any other
value for the key is a type error, and unrelated keys are ignored. -/
def strFieldFold : List (String × Json) → String → String → Except String String
  | [], _, cur => .ok cur
  | (k, v) :: rest, key, cur =>
    if k = key then
      match v with
      | .str s => strFieldFold rest key s
      | .null => strFieldFold rest key cur
      | _ => .error ("json: cannot unmarshal value into field " ++ key)
    else strFieldFold rest key cur

/-- Go json.Unmarshal of a body into the anonymous message struct
(struct with a single field tagged json:"message") used by
getApiErrorMessage.  Decoding null or an object without the key succeeds
with the zero value (the empty string). -/
def unmarshalMessage : Json → Except String String
  | .null => .ok ""
  | .obj fields => strFieldFold fields "message" ""
  | _ => .error "json: cannot unmarshal value into message struct"

/-- Repository record (scanner.go): full_name and name decoded from JSON. -/
structure Repository where
  FullName : String
  Name : String
deriving DecidableEq, Repr

/-- Release record (scanner.go): name decoded from JSON. -/
structure Release where
  Name : String
deriving DecidableEq, Repr

/-- ResultItem pairs a repository with its releases (scanner.go). -/
structure ResultItem where
  Repository : Repository
  Releases : List Release
deriving DecidableEq, Repr

/-- Scanner configuration (scanner.go): base URL and page size. -/
structure Scanner where
  BaseUrl : String
  PerPage : Int
deriving DecidableEq, Repr

/-- Go constant GitHuhApi (sic) from scanner.go. -/
def GitHuhApi : String := "https://api.github.com"

/-- Go constant perPage = 100 from scanner.go. -/
def perPage : Int := 100

/-- Go constant maxWorkersCount = 100 from scanner.go. -/
def maxWorkersCount : Nat := 100

/-- GetDefaultScanner from scanner.go. -/
def GetDefaultScanner : Scanner :=
  { BaseUrl := GitHuhApi, PerPage := perPage }

/-- Scanner.getPerPage from scanner.go: a non-positive configured page size
falls back to the default constant. -/
def Scanner.getPerPage (s : Scanner) : Int :=
  if s.PerPage ≤ 0 then perPage else s.PerPage

/-- Scanner.checkPage from scanner.go. -/
def checkPage (page : Int) : Option String :=
  if page < 1 then some "page could not be less than 1" else none

/-- Scanner.checkUser from scanner.go. -/
def checkUser (user : String) : Option String :=
  if user = "" then some "user name could not be empty" else none

/-- Scanner.checkRepository from scanner.go. -/
def checkRepository (repository : String) : Option String :=
  if repository = "" then some "repository name could not be empty" else none

/-- Response body as seen by the decoders: an unreadable stream, bytes that
are not JSON, or a JSON value. -/
inductive Body where
  | unreadable (msg : String)
  | invalidJson (msg : String)
  | json (j : Json)

/-- Outcome of one http.Get: a transport error or a response with a status
code, a status line (response.Status) and a body. -/
inductive HttpResult where
  | transportErr (msg : String)
  | resp (status : Nat) (statusLine : String) (body : Body)

/-- The forge network behaviour behind the scanner's base URL: responses of
the two GET endpoints, keyed by their path and query parameters. -/
structure Forge where
  repos : String → Int → Int → HttpResult
  releases : String → String → Int → Int → HttpResult

/-- Record of one issued HTTP request (endpoint plus query parameters). -/
inductive Request where
  | repoReq (user : String) (perPageParam page : Int)
  | relReq (user repository : String) (perPageParam page : Int)
deriving DecidableEq, Repr

/-- Per-page parameter carried in a request URL. -/
def Request.perPageParam : Request → Int
  | .repoReq _ pp _ => pp
  | .relReq _ _ pp _ => pp

/-- Decidable equality for Except results, used to evaluate concrete runs. -/
instance {e a : Type} [DecidableEq e] [DecidableEq a] : DecidableEq (Except e a) := fun x y =>
  match x, y with
  | .ok u, .ok v =>
    if h : u = v then .isTrue (by rw [h]) else .isFalse (by simp [h])
  | .error u, .error v =>
    if h : u = v then .isTrue (by rw [h]) else .isFalse (by simp [h])
  | .ok _, .error _ => .isFalse (by simp)
  | .error _, .ok _ => .isFalse (by simp)

/-- Scanner.getApiErrorMessage from scanner.go: read the whole body; if
reading or unmarshalling into the message struct fails, fall back to the
default message (the HTTP status line at both call sites), otherwise return
the unmarshalled message field. -/
def getApiErrorMessage (body : Body) (defaultMessage : String) : String :=
  match body with
  | .unreadable _ => defaultMessage
  | .invalidJson _ => defaultMessage
  | .json j =>
    match unmarshalMessage j with
    | .error _ => defaultMessage
    | .ok m => m

/-- Go decode of one element of a []*Repository: an object with optional
string fields full_name and name.  A JSON null element decodes in Go to a nil
pointer; it is abstracted here as the zero record. -/
def decodeRepository : Json → Except String Repository
  | .null => .ok { FullName := "", Name := "" }
  | .obj fields =>
    match strFieldFold fields "full_name" "" with
    | .error e => .error e
    | .ok fn =>
      match strFieldFold fields "name" "" with
      | .error e => .error e
      | .ok n => .ok { FullName := fn, Name := n }
  | _ => .error "json: cannot unmarshal value into Repository"

/-- Go decode of one element of a []*Release. -/
def decodeRelease : Json → Except String Release
  | .null => .ok { Name := "" }
  | .obj fields =>
    match strFieldFold fields "name" "" with
    | .error e => .error e
    | .ok n => .ok { Name := n }
  | _ => .error "json: cannot unmarshal value into Release"

/-- Go json.Decoder.Decode of a 200 body into []*Repository: a JSON null
decodes to the nil slice, an array decodes elementwise, anything else is a
decode error; an unreadable or non-JSON body is an error. -/
def decodeRepositoriesBody : Body → Except String (List Repository)
  | .unreadable m => .error m
  | .invalidJson m => .error m
  | .json .null => .ok []
  | .json (.arr elems) => elems.mapM decodeRepository
  | .json _ => .error "json: cannot unmarshal value into list of Repository"

/-- Go json.Decoder.Decode of a 200 body into []*Release. -/
def decodeReleasesBody : Body → Except String (List Release)
  | .unreadable m => .error m
  | .invalidJson m => .error m
  | .json .null => .ok []
  | .json (.arr elems) => elems.mapM decodeRelease
  | .json _ => .error "json: cannot unmarshal value into list of Release"

/-- Scanner.GetRepositoriesPerPage from scanner.go.  Returns the list of
HTTP requests issued (empty or a singleton) together with the Go result. -/
def Scanner.GetRepositoriesPerPage (s : Scanner) (f : Forge) (user : String)
    (page : Int) : List Request × Except String (List Repository) :=
  match checkPage page with
  | some e => ([], .error e)
  | none =>
    match checkUser user with
    | some e => ([], .error e)
    | none =>
      let req := Request.repoReq user s.getPerPage page
      match f.repos user s.getPerPage page with
      | .transportErr e => ([req], .error e)
      | .resp status statusLine body =>
        if status = 404 then
          ([req], .error ("account " ++ user ++ " does not exist"))
        else if status ≠ 200 then
          ([req], .error ("could not get repositories for the account " ++ user ++ ": "
            ++ getApiErrorMessage body statusLine))
        else
          match decodeRepositoriesBody body with
          | .error e => ([req], .error e)
          | .ok repositories => ([req], .ok repositories)

/-- Scanner.GetReleasesPerPage from scanner.go.  There is no special case
for 404 on this endpoint. -/
def Scanner.GetReleasesPerPage (s : Scanner) (f : Forge) (user repository : String)
    (page : Int) : List Request × Except String (List Release) :=
  match checkPage page with
  | some e => ([], .error e)
  | none =>
    match checkUser user with
    | some e => ([], .error e)
    | none =>
      match checkRepository repository with
      | some e => ([], .error e)
      | none =>
        let req := Request.relReq user repository s.getPerPage page
        match f.releases user repository s.getPerPage page with
        | .transportErr e => ([req], .error e)
        | .resp status statusLine body =>
          if status ≠ 200 then
            ([req], .error ("could not get releases for the repository " ++ repository
              ++ ": " ++ getApiErrorMessage body statusLine))
          else
            match decodeReleasesBody body with
            | .error e => ([req], .error e)
            | .ok releases => ([req], .ok releases)

/-- The pagination loop shared verbatim by GetAllRepositories and
GetAllReleases in scanner.go: starting at page 1, append each chunk to the
accumulator, stop as soon as a chunk is shorter than the page size, propagate
the first per-page error discarding the accumulator (Go: return nil, err).
Fuel bounds the number of iterations; none means the loop is still running. -/
def paginateAux (fetchPage : Int → List Request × Except String (List α)) (pp : Int) :
    Nat → Int → List α → List Request →
    Option (List Request × List α × Option String)
  | 0, _, _, _ => none
  | fuel + 1, page, acc, reqs =>
    let r := fetchPage page
    match r.2 with
    | .error e => some (reqs ++ r.1, [], some e)
    | .ok chunk =>
      if (chunk.length : Int) < pp then
        some (reqs ++ r.1, acc ++ chunk, none)
      else
        paginateAux fetchPage pp fuel (page + 1) (acc ++ chunk) (reqs ++ r.1)

/-- Scanner.GetAllRepositories from scanner.go. -/
def Scanner.GetAllRepositories (s : Scanner) (f : Forge) (user : String) (fuel : Nat) :
    Option (List Request × List Repository × Option String) :=
  paginateAux (s.GetRepositoriesPerPage f user) s.getPerPage fuel 1 [] []

/-- Scanner.GetAllReleases from scanner.go. -/
def Scanner.GetAllReleases (s : Scanner) (f : Forge) (user repository : String)
    (fuel : Nat) : Option (List Request × List Release × Option String) :=
  paginateAux (s.GetReleasesPerPage f user repository) s.getPerPage fuel 1 [] []

/-- Boolean comparison by repository full name.  Go sorts with
sort.SliceStable and the strict less items[i].FullName < items[j].FullName;
the unique stable order it produces is the stable merge sort by the
corresponding non-strict comparison. -/
def resultItemLE (a b : ResultItem) : Bool :=
  decide (a.Repository.FullName ≤ b.Repository.FullName)

/-- Scanner.sortResultItems from scanner.go. -/
def Scanner.sortResultItems (_s : Scanner) (items : List ResultItem) : List ResultItem :=
  items.mergeSort resultItemLE

/-- One outcome drained by the coordinator's select: a ResultItem from the
results channel or a worker error from the errors channel. -/
inductive Arrival where
  | item (it : ResultItem)
  | failure (e : String)
deriving DecidableEq

/-- True exactly on error arrivals. -/
def Arrival.isFailure : Arrival → Bool
  | .failure _ => true
  | .item _ => false

/-- The collection loop of Scanner.ScanRepositories: jobsCount iterations,
each draining the next outcome; a drained error is wrapped with the account
context and returned together with the items accumulated so far (the Go
function uses named return values, so those items are part of the return).
Draining from an exhausted schedule would block forever; that is none. -/
def scanCollect (user : String) :
    Nat → List Arrival → List ResultItem → Option (List ResultItem × Option String)
  | 0, _, acc => some (acc, none)
  | _ + 1, [], _ => none
  | _ + 1, .failure e :: _, acc =>
    some (acc, some ("could not scan repository for the account " ++ user ++ ": " ++ e))
  | n + 1, .item it :: rest, acc => scanCollect user n rest (acc ++ [it])

/-- Scanner.ScanRepositories from scanner.go, parameterised by the drain
schedule of the coordinator's select loop.  On a repository-listing failure
the error is returned as is (Go: return with the named values nil, err); on
success the collection loop runs for jobsCount outcomes and the collected
items are sorted before returning. -/
def Scanner.ScanRepositories (s : Scanner) (f : Forge) (user : String) (fuel : Nat)
    (arrivals : List Arrival) : Option (List ResultItem × Option String) :=
  match s.GetAllRepositories f user fuel with
  | none => none
  | some (_, _, some e) => some ([], some e)
  | some (_, repositories, none) =>
    match scanCollect user repositories.length arrivals [] with
    | none => none
    | some (items, some e) => some (items, some e)
    | some (items, none) => some (s.sortResultItems items, none)

/-- Outcome of one worker's release fetch for a repository name: what
GetAllReleases hands back to the worker (none when the pagination loop does
not terminate within the fuel). -/
def Scanner.releaseOutcome (s : Scanner) (f : Forge) (user : String) (fuel : Nat)
    (repoName : String) : Option (Except String (List Release)) :=
  match s.GetAllReleases f user repoName fuel with
  | none => none
  | some (_, _, some e) => some (.error e)
  | some (_, rels, none) => some (.ok rels)

/-- One drained outcome is what processing the given repository job can
produce: a successful fetch yields a ResultItem carrying that repository and
exactly the fetched releases; a failed fetch yields its error. -/
def matchesJob (fetch : String → Option (Except String (List Release))) :
    Repository → Arrival → Prop
  | r, .item it => it.Repository = r ∧ fetch r.Name = some (.ok it.Releases)
  | r, .failure e => fetch r.Name = some (.error e)

/-- Drain schedules the channel protocol can produce: every drained outcome
comes from processing a distinct job taken from the repository list (jobs are
enqueued once each and consumed by at most one worker), and when no worker
fails nothing is cancelled, so all jobs complete and exactly one outcome per
repository is available to drain. -/
def ValidArrivals (fetch : String → Option (Except String (List Release)))
    (repositories : List Repository) (arrivals : List Arrival) : Prop :=
  ∃ sources : List Repository,
    sources.Subperm repositories ∧
    List.Forall₂ (matchesJob fetch) sources arrivals ∧
    ((∀ a ∈ arrivals, a.isFailure = false) → arrivals.length = repositories.length)

/-! Concrete accounts, repositories and forge behaviours used by the witness
and counterexample theorems. -/

/-- Repository test/a. -/
def rA : Repository := { FullName := "test/a", Name := "a" }

/-- Repository test/b. -/
def rB : Repository := { FullName := "test/b", Name := "b" }

/-- Release v1. -/
def relV1 : Release := { Name := "v1" }

/-- ResultItem for test/a with one release. -/
def itemA : ResultItem := { Repository := rA, Releases := [relV1] }

/-- ResultItem for test/b with no releases. -/
def itemB : ResultItem := { Repository := rB, Releases := [] }

/-- JSON body listing the repositories test/a and test/b. -/
def repoBodyAB : Body :=
  .json (.arr [
    .obj [("full_name", .str "test/a"), ("name", .str "a")],
    .obj [("full_name", .str "test/b"), ("name", .str "b")]])

/-- Forge on which every fetch succeeds: two repositories, repository a has
one release v1 and repository b has none. -/
def forgeOK : Forge where
  repos := fun _ _ _ => .resp 200 "200 OK" repoBodyAB
  releases := fun _ repoName _ _ =>
    if repoName = "a" then .resp 200 "200 OK" (.json (.arr [.obj [("name", .str "v1")]]))
    else .resp 200 "200 OK" (.json (.arr []))

/-- Forge where listing and repository a succeed but fetching the releases
of repository b fails with HTTP 403. -/
def forgePartial : Forge where
  repos := fun _ _ _ => .resp 200 "200 OK" repoBodyAB
  releases := fun _ repoName _ _ =>
    if repoName = "a" then .resp 200 "200 OK" (.json (.arr [.obj [("name", .str "v1")]]))
    else .resp 403 "403 Forbidden" (.json (.obj [("message", .str "forbidden")]))

/-- Repository x (short name a) sharing its full name with rXB. -/
def rXA : Repository := { FullName := "x", Name := "a" }

/-- Repository x (short name b) sharing its full name with rXA. -/
def rXB : Repository := { FullName := "x", Name := "b" }

/-- ResultItem for rXA with no releases. -/
def itemXA : ResultItem := { Repository := rXA, Releases := [] }

/-- ResultItem for rXB with one release. -/
def itemXB : ResultItem := { Repository := rXB, Releases := [relV1] }

/-- Forge returning two repositories with the same full name x and distinct
short names with distinct release lists. -/
def forgeDup : Forge where
  repos := fun _ _ _ => .resp 200 "200 OK" (.json (.arr [
    .obj [("full_name", .str "x"), ("name", .str "a")],
    .obj [("full_name", .str "x"), ("name", .str "b")]]))
  releases := fun _ repoName _ _ =>
    if repoName = "a" then .resp 200 "200 OK" (.json (.arr []))
    else .resp 200 "200 OK" (.json (.arr [.obj [("name", .str "v1")]]))

/-- Forge whose repository endpoint fails at the transport level. -/
def forgeTransport : Forge where
  repos := fun _ _ _ => .transportErr "dial tcp: connection refused"
  releases := fun _ _ _ _ => .transportErr "dial tcp: connection refused"

/-- Forge answering HTTP 500 with a message body on both endpoints. -/
def forgeErr500 : Forge where
  repos := fun _ _ _ =>
    .resp 500 "500 Internal Server Error" (.json (.obj [("message", .str "boom")]))
  releases := fun _ _ _ _ =>
    .resp 500 "500 Internal Server Error" (.json (.obj [("message", .str "boom")]))

/-- Forge answering HTTP 403 whose body is the JSON object with no members,
which Go unmarshals into the message struct successfully with an empty
message. -/
def forgeEmptyMessage : Forge where
  repos := fun _ _ _ => .resp 403 "403 Forbidden" (.json (.obj []))
  releases := fun _ _ _ _ => .resp 403 "403 Forbidden" (.json (.obj []))

/-- Forge answering 404 with a message body on the repository endpoint and
403 with a message body on the releases endpoint. -/
def forge404 : Forge where
  repos := fun _ _ _ => .resp 404 "404 Not Found" (.json (.obj [("message", .str "Not Found")]))
  releases := fun _ _ _ _ => .resp 403 "403 Forbidden" (.json (.obj [("message", .str "forbidden")]))

/-- Scanner with page size three, used for multi-page scenarios. -/
def scanner3 : Scanner := { BaseUrl := "http://stub", PerPage := 3 }

/-- Repository record named after its index for paging scenarios. -/
def rIdx (i : Nat) : Repository := { FullName := "t/r" ++ toString i, Name := "r" ++ toString i }

/-- Release record named after its index for paging scenarios. -/
def relIdx (i : Nat) : Release := { Name := "v" ++ toString i }

/-- JSON object of a repository record for paging scenarios. -/
def repoObj (i : Nat) : Json :=
  .obj [("full_name", .str ("t/r" ++ toString i)), ("name", .str ("r" ++ toString i))]

/-- JSON object of a release record for paging scenarios. -/
def relObj (i : Nat) : Json := .obj [("name", .str ("v" ++ toString i))]

/-- Forge with two repository pages (sizes three and two) and, for
repository r1, two release pages (sizes three and two); matching the
multi-page scenarios of the repository's own tests. -/
def forgePaged : Forge where
  repos := fun _ _ page =>
    if page = 1 then .resp 200 "200 OK" (.json (.arr [repoObj 1, repoObj 2, repoObj 3]))
    else .resp 200 "200 OK" (.json (.arr [repoObj 4, repoObj 5]))
  releases := fun _ _ _ page =>
    if page = 1 then .resp 200 "200 OK" (.json (.arr [relObj 5, relObj 4, relObj 3]))
    else .resp 200 "200 OK" (.json (.arr [relObj 2, relObj 1]))

/-- The ResultItem a worker constructs for a repository whose release fetch
succeeded with the given releases (the item literal in the worker closure). -/
def workerItem (rel : Repository → List Release) (r : Repository) : ResultItem :=
  { Repository := r, Releases := rel r }

/-- Release lists served by forgeOK, per repository short name. -/
def relOK : Repository → List Release :=
  fun r => if r.Name = "a" then [relV1] else []

/-- Release lists served by forgeDup, per repository short name. -/
def relDup : Repository → List Release :=
  fun r => if r.Name = "a" then [] else [relV1]

/-- Whenever the pagination loop returns an error, the record list it
returns is empty: the Go loop returns nil together with the error,
discarding every previously accumulated chunk. -/
theorem paginateAux_error_eq_nil {α : Type}
    (fp : Int → List Request × Except String (List α)) (pp : Int) :
    ∀ (fuel : Nat) (page : Int) (acc : List α) (reqs r : List Request)
      (l : List α) (e : String),
      paginateAux fp pp fuel page acc reqs = some (r, l, some e) → l = [] := by
  intro fuel
  induction fuel with
  | zero =>
    intro page acc reqs r l e h
    simp [paginateAux] at h
  | succ n ih =>
    intro page acc reqs r l e h
    rw [paginateAux] at h
    cases h2 : (fp page).2 with
    | error e2 =>
      rw [h2] at h
      simp only [Option.some.injEq, Prod.mk.injEq] at h
      exact h.2.1.symm
    | ok chunk =>
      rw [h2] at h
      dsimp only at h
      by_cases hlt : ((chunk.length : Int) < pp)
      · rw [if_pos hlt] at h
        simp at h
      · rw [if_neg hlt] at h
        exact ih _ _ _ _ _ _ h

/-- C10: whenever GetAllRepositories or GetAllReleases returns a non-nil
error, the accompanying slice is nil; no partially accumulated pages from
earlier successful requests are returned alongside an error. -/
theorem getAll_error_returns_nil (s : Scanner) (f : Forge) (user repoName : String)
    (fuel : Nat) (r r2 : List Request) (lst : List Repository) (lst2 : List Release)
    (e e2 : String) :
    (s.GetAllRepositories f user fuel = some (r, lst, some e) → lst = []) ∧
    (s.GetAllReleases f user repoName fuel = some (r2, lst2, some e2) → lst2 = []) :=
  ⟨fun h => paginateAux_error_eq_nil _ _ _ _ _ _ _ _ _ h,
   fun h => paginateAux_error_eq_nil _ _ _ _ _ _ _ _ _ h⟩

/-- Witness for getAll_error_returns_nil on a forge answering HTTP 500 on
both endpoints: the listings fail after issuing one request each and the
returned slices are empty. -/
theorem getAll_error_returns_nil_witness :
    GetDefaultScanner.GetAllRepositories forgeErr500 "test" 3 =
      some ([Request.repoReq "test" 100 1], ([] : List Repository),
        some "could not get repositories for the account test: boom") ∧
    GetDefaultScanner.GetAllReleases forgeErr500 "test" "b" 3 =
      some ([Request.relReq "test" "b" 100 1], ([] : List Release),
        some "could not get releases for the repository b: boom") ∧
    ([] : List Repository) = [] ∧ ([] : List Release) = [] :=
  ⟨by decide, by decide,
   (getAll_error_returns_nil GetDefaultScanner forgeErr500 "test" "b" 3
      [Request.repoReq "test" 100 1] [Request.relReq "test" "b" 100 1] [] []
      "could not get repositories for the account test: boom"
      "could not get releases for the repository b: boom").1 (by decide),
   (getAll_error_returns_nil GetDefaultScanner forgeErr500 "test" "b" 3
      [Request.repoReq "test" 100 1] [Request.relReq "test" "b" 100 1] [] []
      "could not get repositories for the account test: boom"
      "could not get releases for the repository b: boom").2 (by decide)⟩

/-- C8: an empty account name or a non-positive page makes
GetRepositoriesPerPage, and an empty account name, an empty repository name
or a non-positive page makes GetReleasesPerPage, return one of the argument
validation errors without issuing any HTTP request. -/
theorem perPage_argument_validation (s : Scanner) (f : Forge) (user repository : String)
    (page : Int) :
    (user = "" ∨ page < 1 →
      ∃ m, s.GetRepositoriesPerPage f user page = ([], .error m) ∧
        (m = "page could not be less than 1" ∨ m = "user name could not be empty")) ∧
    (user = "" ∨ repository = "" ∨ page < 1 →
      ∃ m, s.GetReleasesPerPage f user repository page = ([], .error m) ∧
        (m = "page could not be less than 1" ∨ m = "user name could not be empty" ∨
         m = "repository name could not be empty")) := by
  constructor
  · intro h
    by_cases hp : page < 1
    · exact ⟨_, by simp [Scanner.GetRepositoriesPerPage, checkPage, hp], Or.inl rfl⟩
    · have hu : user = "" := h.resolve_right hp
      exact ⟨_, by simp [Scanner.GetRepositoriesPerPage, checkPage, checkUser, hp, hu],
        Or.inr rfl⟩
  · intro h
    by_cases hp : page < 1
    · exact ⟨_, by simp [Scanner.GetReleasesPerPage, checkPage, hp], Or.inl rfl⟩
    · by_cases hu : user = ""
      · exact ⟨_, by simp [Scanner.GetReleasesPerPage, checkPage, checkUser, hp, hu],
          Or.inr (Or.inl rfl)⟩
      · have hr : repository = "" := by
          rcases h with h | h | h
          · exact absurd h hu
          · exact h
          · exact absurd h hp
        exact ⟨_, by simp [Scanner.GetReleasesPerPage, checkPage, checkUser,
          checkRepository, hp, hu, hr], Or.inr (Or.inr rfl)⟩

/-- Witness for perPage_argument_validation with an empty account name and a
non-positive page on a live forge behaviour. -/
theorem perPage_argument_validation_witness :
    (∃ m, GetDefaultScanner.GetRepositoriesPerPage forgeOK "" 1 = ([], .error m) ∧
      (m = "page could not be less than 1" ∨ m = "user name could not be empty")) ∧
    (∃ m, GetDefaultScanner.GetReleasesPerPage forgeOK "test" "" 1 = ([], .error m) ∧
      (m = "page could not be less than 1" ∨ m = "user name could not be empty" ∨
       m = "repository name could not be empty")) :=
  ⟨(perPage_argument_validation GetDefaultScanner forgeOK "" "b" 1).1 (Or.inl rfl),
   (perPage_argument_validation GetDefaultScanner forgeOK "test" "" 1).2
     (Or.inr (Or.inl rfl))⟩

/-- The effective page size is always positive. -/
theorem Scanner.getPerPage_pos (s : Scanner) : 0 < s.getPerPage := by
  unfold Scanner.getPerPage
  split
  · simp [perPage]
  · omega

/-- GetRepositoriesPerPage issues no request or exactly the one request whose
per_page parameter is the effective page size. -/
theorem GetRepositoriesPerPage_requests (s : Scanner) (f : Forge) (user : String)
    (page : Int) :
    (s.GetRepositoriesPerPage f user page).1 = [] ∨
    (s.GetRepositoriesPerPage f user page).1 = [Request.repoReq user s.getPerPage page] := by
  unfold Scanner.GetRepositoriesPerPage
  dsimp only
  (repeat' split) <;> first | exact Or.inl rfl | exact Or.inr rfl

/-- GetReleasesPerPage issues no request or exactly the one request whose
per_page parameter is the effective page size. -/
theorem GetReleasesPerPage_requests (s : Scanner) (f : Forge) (user repository : String)
    (page : Int) :
    (s.GetReleasesPerPage f user repository page).1 = [] ∨
    (s.GetReleasesPerPage f user repository page).1 =
      [Request.relReq user repository s.getPerPage page] := by
  unfold Scanner.GetReleasesPerPage
  dsimp only
  (repeat' split) <;> first | exact Or.inl rfl | exact Or.inr rfl

/-- Two scanners with the same effective page size issue identical repository
page fetches. -/
theorem GetRepositoriesPerPage_congr (s1 s2 : Scanner) (f : Forge) (user : String)
    (h : s1.getPerPage = s2.getPerPage) :
    s1.GetRepositoriesPerPage f user = s2.GetRepositoriesPerPage f user := by
  funext page
  unfold Scanner.GetRepositoriesPerPage
  rw [h]

/-- Two scanners with the same effective page size issue identical release
page fetches. -/
theorem GetReleasesPerPage_congr (s1 s2 : Scanner) (f : Forge) (user repository : String)
    (h : s1.getPerPage = s2.getPerPage) :
    s1.GetReleasesPerPage f user repository = s2.GetReleasesPerPage f user repository := by
  funext page
  unfold Scanner.GetReleasesPerPage
  rw [h]

/-- C9: the effective per-page value equals the configured PerPage when it is
positive and the default 100 otherwise; every issued request carries that
value as its per_page parameter; and a scanner with a non-positive page size
behaves exactly like one configured with the default 100 — a non-positive
page size is never an error. -/
theorem getPerPage_defaulting (s : Scanner) (f : Forge) (user repository : String)
    (page : Int) (p : Int) (fuel : Nat) :
    (0 < s.PerPage → s.getPerPage = s.PerPage) ∧
    (s.PerPage ≤ 0 → s.getPerPage = 100) ∧
    (∀ q ∈ (s.GetRepositoriesPerPage f user page).1, q.perPageParam = s.getPerPage) ∧
    (∀ q ∈ (s.GetReleasesPerPage f user repository page).1, q.perPageParam = s.getPerPage) ∧
    (p ≤ 0 →
      (Scanner.mk s.BaseUrl p).GetAllRepositories f user fuel =
        (Scanner.mk s.BaseUrl 100).GetAllRepositories f user fuel ∧
      (Scanner.mk s.BaseUrl p).GetAllReleases f user repository fuel =
        (Scanner.mk s.BaseUrl 100).GetAllReleases f user repository fuel) := by
  refine ⟨fun hpos => ?_, fun hnp => ?_, fun q hq => ?_, fun q hq => ?_, fun hp => ?_⟩
  · unfold Scanner.getPerPage
    rw [if_neg (by omega)]
  · unfold Scanner.getPerPage
    rw [if_pos hnp]
    rfl
  · rcases GetRepositoriesPerPage_requests s f user page with h | h <;> rw [h] at hq
    · simp at hq
    · simp at hq
      rw [hq]
      rfl
  · rcases GetReleasesPerPage_requests s f user repository page with h | h <;> rw [h] at hq
    · simp at hq
    · simp at hq
      rw [hq]
      rfl
  · have hpp : (Scanner.mk s.BaseUrl p).getPerPage = (Scanner.mk s.BaseUrl 100).getPerPage := by
      simp [Scanner.getPerPage, hp, perPage]
    constructor
    · unfold Scanner.GetAllRepositories
      rw [GetRepositoriesPerPage_congr _ (Scanner.mk s.BaseUrl 100) f user hpp, hpp]
    · unfold Scanner.GetAllReleases
      rw [GetReleasesPerPage_congr _ (Scanner.mk s.BaseUrl 100) f user repository hpp, hpp]

/-- Witness for getPerPage_defaulting at a zero-valued configuration. -/
theorem getPerPage_defaulting_witness :
    (Scanner.mk "http://stub" 0).getPerPage = 100 ∧
    (Scanner.mk "http://stub" 0).GetAllRepositories forgeOK "test" 3 =
      (Scanner.mk "http://stub" 100).GetAllRepositories forgeOK "test" 3 ∧
    scanner3.getPerPage = scanner3.PerPage :=
  ⟨(getPerPage_defaulting (Scanner.mk "http://stub" 0) forgeOK "test" "b" 1 0 3).2.1
     (by decide),
   ((getPerPage_defaulting (Scanner.mk "http://stub" 0) forgeOK "test" "b" 1 0 3).2.2.2.2
     (by decide)).1,
   (getPerPage_defaulting scanner3 forgeOK "test" "b" 1 0 3).1 (by decide)⟩

/-- Counterexample to C7 as stated: on a non-200 response whose body is the
JSON object with no members, Go unmarshals the message struct successfully
with the zero value, so the surfaced message is the empty string and not the
HTTP status line, even though the body has no message field. -/
theorem non200_empty_object_counterexample :
    getApiErrorMessage (Body.json (Json.obj [])) "403 Forbidden" = "" ∧
    ("" : String) ≠ "403 Forbidden" ∧
    GetDefaultScanner.GetRepositoriesPerPage forgeEmptyMessage "test" 1 =
      ([Request.repoReq "test" 100 1],
        .error "could not get repositories for the account test: ") ∧
    "could not get repositories for the account test: " ≠
      "could not get repositories for the account test: 403 Forbidden" :=
  ⟨rfl, by decide, by decide, by decide⟩

/-- C7 amended: a 404 on the repository-list endpoint yields the
account-not-found error naming the account; any other non-200 status on the
repository-list endpoint, and any non-200 status on the releases endpoint,
yields an error carrying the result of unmarshalling the body into the
message struct — the message field when it is present as a string, the empty
string when the body is a JSON object without the field or JSON null, and
the HTTP status line only when reading or unmarshalling fails. -/
theorem non200_error_classification (s : Scanner) (f : Forge) (user repository : String)
    (page : Int) (status : Nat) (statusLine : String) (body : Body)
    (m d e : String) (fields : List (String × Json)) (j : Json) :
    (f.repos user s.getPerPage page = .resp 404 statusLine body → user ≠ "" → 1 ≤ page →
      s.GetRepositoriesPerPage f user page =
        ([Request.repoReq user s.getPerPage page],
          .error ("account " ++ user ++ " does not exist"))) ∧
    (f.repos user s.getPerPage page = .resp status statusLine body → status ≠ 404 →
      status ≠ 200 → user ≠ "" → 1 ≤ page →
      s.GetRepositoriesPerPage f user page =
        ([Request.repoReq user s.getPerPage page],
          .error ("could not get repositories for the account " ++ user ++ ": " ++
            getApiErrorMessage body statusLine))) ∧
    (f.releases user repository s.getPerPage page = .resp status statusLine body →
      status ≠ 200 → user ≠ "" → repository ≠ "" → 1 ≤ page →
      s.GetReleasesPerPage f user repository page =
        ([Request.relReq user repository s.getPerPage page],
          .error ("could not get releases for the repository " ++ repository ++ ": " ++
            getApiErrorMessage body statusLine))) ∧
    (getApiErrorMessage (Body.json (Json.obj [("message", Json.str m)])) d = m) ∧
    (strFieldFold fields "message" "" = .ok m →
      getApiErrorMessage (Body.json (Json.obj fields)) d = m) ∧
    (unmarshalMessage j = .error e → getApiErrorMessage (Body.json j) d = d) ∧
    (getApiErrorMessage (Body.json Json.null) d = "") ∧
    (getApiErrorMessage (Body.unreadable e) d = d) ∧
    (getApiErrorMessage (Body.invalidJson e) d = d) := by
  refine ⟨fun hresp hu hpg => ?_, fun hresp h404 h200 hu hpg => ?_,
    fun hresp h200 hu hr hpg => ?_, ?_, fun hfold => ?_, fun hum => ?_, rfl, rfl, rfl⟩
  · have hcp : checkPage page = none := by
      unfold checkPage
      rw [if_neg (by omega)]
    simp [Scanner.GetRepositoriesPerPage, hcp, checkUser, hu, hresp]
  · have hcp : checkPage page = none := by
      unfold checkPage
      rw [if_neg (by omega)]
    simp [Scanner.GetRepositoriesPerPage, hcp, checkUser, hu, hresp, h404, h200]
  · have hcp : checkPage page = none := by
      unfold checkPage
      rw [if_neg (by omega)]
    simp [Scanner.GetReleasesPerPage, hcp, checkUser, checkRepository, hu, hr,
      hresp, h200]
  · rfl
  · simp [getApiErrorMessage, unmarshalMessage, hfold]
  · simp [getApiErrorMessage, hum]

/-- Witness for non200_error_classification: the 404 branch on the
repository endpoint, the generic branch with a message body on the releases
endpoint, and the generic branch on the repository endpoint. -/
theorem non200_error_classification_witness :
    GetDefaultScanner.GetRepositoriesPerPage forge404 "test" 1 =
      ([Request.repoReq "test" 100 1], .error "account test does not exist") ∧
    GetDefaultScanner.GetReleasesPerPage forge404 "test" "b" 1 =
      ([Request.relReq "test" "b" 100 1],
        .error "could not get releases for the repository b: forbidden") ∧
    GetDefaultScanner.GetRepositoriesPerPage forgeErr500 "test" 1 =
      ([Request.repoReq "test" 100 1],
        .error "could not get repositories for the account test: boom") :=
  ⟨(non200_error_classification GetDefaultScanner forge404 "test" "b" 1 403
      "404 Not Found" (.json (.obj [("message", .str "Not Found")])) "" "" ""
      [] .null).1 rfl (by decide) (by decide),
   (non200_error_classification GetDefaultScanner forge404 "test" "b" 1 403
      "403 Forbidden" (.json (.obj [("message", .str "forbidden")])) "" "" ""
      [] .null).2.2.1 rfl (by decide) (by decide) (by decide) (by decide),
   (non200_error_classification GetDefaultScanner forgeErr500 "test" "b" 1 500
      "500 Internal Server Error" (.json (.obj [("message", .str "boom")])) "" "" ""
      [] .null).2.1 rfl (by decide) (by decide) (by decide) (by decide)⟩

/-- Under the short-page termination contract — every chunk before the last
has length at least the page size and the last chunk is shorter — the
pagination loop fetches exactly the pages page, page+1, … in order, records
one request per page, and returns the chunks concatenated in page order. -/
theorem paginateAux_pages {α : Type}
    (fp : Int → List Request × Except String (List α)) (pp : Int) (rq : Int → Request) :
    ∀ (chunks : List (List α)) (hne : chunks ≠ []) (fuel : Nat) (page : Int)
      (acc : List α) (reqs : List Request),
      chunks.length ≤ fuel →
      (∀ i, i + 1 < chunks.length → ¬(((chunks.getD i []).length : Int) < pp)) →
      (((chunks.getLast hne).length : Int) < pp) →
      (∀ i, i < chunks.length → fp (page + i) = ([rq (page + i)], .ok (chunks.getD i []))) →
      paginateAux fp pp fuel page acc reqs =
        some (reqs ++ (List.range chunks.length).map (fun i : Nat => rq (page + (i : Int))),
          acc ++ chunks.flatten, none) := by
  intro chunks
  induction chunks with
  | nil => intro hne; exact absurd rfl hne
  | cons c rest ih =>
    intro hne fuel page acc reqs hfuel hfull hlast hpages
    obtain ⟨fuel2, rfl⟩ : ∃ m, fuel = m + 1 := ⟨fuel - 1, by simp at hfuel; omega⟩
    have h0 : fp page = ([rq page], .ok c) := by
      have h := hpages 0 (by simp)
      simpa using h
    rw [paginateAux]
    rw [h0]
    dsimp only
    cases rest with
    | nil =>
      rw [if_pos (by simpa using hlast)]
      simp [List.range_succ]
    | cons c2 rest2 =>
      have hc : ¬((c.length : Int) < pp) := by
        have h := hfull 0 (by simp)
        simpa using h
      rw [if_neg hc]
      have hne2 : c2 :: rest2 ≠ [] := by simp
      rw [ih hne2 fuel2 (page + 1) (acc ++ c) (reqs ++ [rq page])
        (by simp at hfuel ⊢; omega)
        (fun i hi => by
          have h := hfull (i + 1) (by simp at hi ⊢; omega)
          simpa using h)
        (by
          have h : (c :: c2 :: rest2).getLast hne = (c2 :: rest2).getLast hne2 :=
            List.getLast_cons hne2
          rw [h] at hlast
          exact hlast)
        (fun i hi => by
          have h := hpages (i + 1) (by simp at hi ⊢; omega)
          have harg : page + ((i : Nat) + 1 : Nat) = page + 1 + (i : Nat) := by
            push_cast
            ring
          rw [harg] at h
          simpa using h)]
      congr 2
      · rw [List.append_assoc]
        congr 1
        simp only [List.length_cons]
        conv_rhs => rw [List.range_succ_eq_map]
        simp only [List.map_cons, List.map_map, List.singleton_append]
        congr 1
        · simp
        · apply List.map_congr_left
          intro i _
          simp only [Function.comp, Nat.succ_eq_add_one]
          congr 1
          push_cast
          ring
      · simp

/-- C3: when the forge serves pages 1..k where every page before the k-th
has exactly the effective page size and the k-th is strictly shorter,
GetAllRepositories issues exactly the k page requests 1..k and returns the
chunks concatenated in page order, and GetAllReleases satisfies the same
contract.  With the first chunk empty (k = 1) the loop terminates
immediately with the empty sequence, since the page size is positive. -/
theorem getAll_pagination (s : Scanner) (f : Forge) (user repository : String)
    (fuel : Nat) (chunks : List (List Repository)) (rchunks : List (List Release))
    (hne : chunks ≠ []) (hrne : rchunks ≠ [])
    (hfuel : chunks.length ≤ fuel) (hrfuel : rchunks.length ≤ fuel)
    (hfull : ∀ i, i + 1 < chunks.length → ((chunks.getD i []).length : Int) = s.getPerPage)
    (hlast : ((chunks.getLast hne).length : Int) < s.getPerPage)
    (hrfull : ∀ i, i + 1 < rchunks.length →
      ((rchunks.getD i []).length : Int) = s.getPerPage)
    (hrlast : ((rchunks.getLast hrne).length : Int) < s.getPerPage)
    (hpages : ∀ i : Nat, i < chunks.length →
      s.GetRepositoriesPerPage f user (1 + i) =
        ([Request.repoReq user s.getPerPage (1 + i)], .ok (chunks.getD i [])))
    (hrpages : ∀ i : Nat, i < rchunks.length →
      s.GetReleasesPerPage f user repository (1 + i) =
        ([Request.relReq user repository s.getPerPage (1 + i)], .ok (rchunks.getD i []))) :
    s.GetAllRepositories f user fuel =
      some ((List.range chunks.length).map
          (fun i : Nat => Request.repoReq user s.getPerPage (1 + (i : Int))),
        chunks.flatten, none) ∧
    s.GetAllReleases f user repository fuel =
      some ((List.range rchunks.length).map
          (fun i : Nat => Request.relReq user repository s.getPerPage (1 + (i : Int))),
        rchunks.flatten, none) := by
  constructor
  · have h := paginateAux_pages (s.GetRepositoriesPerPage f user) s.getPerPage
      (fun pg => Request.repoReq user s.getPerPage pg) chunks hne fuel 1 [] []
      hfuel (fun i hi => by rw [hfull i hi]; omega) hlast hpages
    simpa [Scanner.GetAllRepositories] using h
  · have h := paginateAux_pages (s.GetReleasesPerPage f user repository) s.getPerPage
      (fun pg => Request.relReq user repository s.getPerPage pg) rchunks hrne fuel 1 [] []
      hrfuel (fun i hi => by rw [hrfull i hi]; omega) hrlast hrpages
    simpa [Scanner.GetAllReleases] using h

/-- Witness for getAll_pagination: the two-page repository and release
scenarios of the repository's own tests (page size three, pages of sizes
three and two), plus an empty first release page terminating immediately. -/
theorem getAll_pagination_witness :
    scanner3.GetAllRepositories forgePaged "test" 5 =
      some ([Request.repoReq "test" 3 1, Request.repoReq "test" 3 2],
        [rIdx 1, rIdx 2, rIdx 3, rIdx 4, rIdx 5], none) ∧
    scanner3.GetAllReleases forgePaged "test" "r1" 5 =
      some ([Request.relReq "test" "r1" 3 1, Request.relReq "test" "r1" 3 2],
        [relIdx 5, relIdx 4, relIdx 3, relIdx 2, relIdx 1], none) ∧
    GetDefaultScanner.GetAllReleases forgeOK "test" "zzz" 5 =
      some ([Request.relReq "test" "zzz" 100 1], [], none) := by
  have h := getAll_pagination scanner3 forgePaged "test" "r1" 5
    [[rIdx 1, rIdx 2, rIdx 3], [rIdx 4, rIdx 5]]
    [[relIdx 5, relIdx 4, relIdx 3], [relIdx 2, relIdx 1]]
    (by decide) (by decide) (by decide) (by decide)
    (fun i hi => by
      have h0 : i = 0 := by simp at hi; omega
      subst h0
      decide)
    (by decide)
    (fun i hi => by
      have h0 : i = 0 := by simp at hi; omega
      subst h0
      decide)
    (by decide) (by decide) (by decide)
  have h2 := getAll_pagination GetDefaultScanner forgeOK "test" "zzz" 5
    [[rA, rB]] [[]]
    (by decide) (by decide) (by decide) (by decide)
    (fun i hi => by simp at hi) (by decide)
    (fun i hi => by simp at hi) (by decide)
    (by decide) (by decide)
  exact ⟨h.1.trans (by decide), h.2.trans (by decide), h2.2.trans (by decide)⟩

/-- The collection loop on an all-success schedule of exactly the expected
length drains every item in arrival order. -/
theorem scanCollect_items (user : String) :
    ∀ (items : List ResultItem) (n : Nat) (acc : List ResultItem),
      items.length = n →
      scanCollect user n (items.map .item) acc = some (acc ++ items, none) := by
  intro items
  induction items with
  | nil =>
    intro n acc h
    simp at h
    subst h
    simp [scanCollect]
  | cons it rest ih =>
    intro n acc h
    simp at h
    subst h
    simp only [List.map_cons, scanCollect]
    rw [ih rest.length (acc ++ [it]) rfl]
    simp

/-- The collection loop on a schedule of some items followed by a failure,
with the failure drained within the loop's budget, returns the items drained
before the failure together with the wrapped error, and never looks past the
failure. -/
theorem scanCollect_failure (user : String) :
    ∀ (pre : List ResultItem) (n : Nat) (acc : List ResultItem) (e : String)
      (post : List Arrival),
      pre.length < n →
      scanCollect user n (pre.map .item ++ .failure e :: post) acc =
        some (acc ++ pre,
          some ("could not scan repository for the account " ++ user ++ ": " ++ e)) := by
  intro pre
  induction pre with
  | nil =>
    intro n acc e post hn
    obtain ⟨m, rfl⟩ : ∃ m, n = m + 1 := ⟨n - 1, by omega⟩
    simp [scanCollect]
  | cons it rest ih =>
    intro n acc e post hn
    obtain ⟨m, rfl⟩ : ∃ m, n = m + 1 := ⟨n - 1, by omega⟩
    simp only [List.map_cons, List.cons_append, List.append_eq, scanCollect]
    rw [ih m (acc ++ [it]) e post (by simp at hn; omega)]
    simp

/-- A forge sharing the repository endpoint behaviour produces the same
repository page fetches regardless of its releases endpoint. -/
theorem GetRepositoriesPerPage_releases_irrelevant (s : Scanner) (f : Forge)
    (rel : String → String → Int → Int → HttpResult) (user : String) :
    s.GetRepositoriesPerPage (Forge.mk f.repos rel) user =
      s.GetRepositoriesPerPage f user := rfl

/-- Counterexample to C6 as stated: on a transport failure of the initial
repository listing, ScanRepositories returns the underlying error verbatim,
not wrapped with the account-scan context it applies to worker errors. -/
theorem scan_listing_error_counterexample :
    GetDefaultScanner.ScanRepositories forgeTransport "test" 5 [] =
      some ([], some "dial tcp: connection refused") ∧
    "dial tcp: connection refused" ≠
      "could not scan repository for the account test: dial tcp: connection refused" :=
  ⟨by decide, by decide⟩

/-- C6 amended: if the initial repository listing fails, ScanRepositories
returns that failure unchanged — without the account-scan wrapping it
applies to worker errors — returns no items, consumes no drained worker
outcome, and never touches the releases endpoint. -/
theorem scan_listing_error_propagates (s : Scanner) (f : Forge) (user : String)
    (fuel : Nat) (reqs : List Request) (lst : List Repository) (e : String)
    (arrivals : List Arrival)
    (rel : String → String → Int → Int → HttpResult)
    (h : s.GetAllRepositories f user fuel = some (reqs, lst, some e)) :
    s.ScanRepositories f user fuel arrivals = some ([], some e) ∧
    s.ScanRepositories (Forge.mk f.repos rel) user fuel arrivals = some ([], some e) := by
  have h2 : (Forge.mk f.repos rel).repos = f.repos := rfl
  constructor
  · unfold Scanner.ScanRepositories
    rw [h]
  · unfold Scanner.ScanRepositories
    unfold Scanner.GetAllRepositories at h ⊢
    rw [GetRepositoriesPerPage_releases_irrelevant s f rel user, h]

/-- Witness for scan_listing_error_propagates: a transport failure on the
listing is surfaced unchanged for any schedule and any releases endpoint
behaviour, here one that would answer HTTP 500. -/
theorem scan_listing_error_propagates_witness :
    GetDefaultScanner.ScanRepositories forgeTransport "test" 5 [.failure "x"] =
      some ([], some "dial tcp: connection refused") ∧
    GetDefaultScanner.ScanRepositories
        (Forge.mk forgeTransport.repos forgeErr500.releases) "test" 5 [.failure "x"] =
      some ([], some "dial tcp: connection refused") :=
  scan_listing_error_propagates GetDefaultScanner forgeTransport "test" 5
    [Request.repoReq "test" 100 1] [] "dial tcp: connection refused" [.failure "x"]
    forgeErr500.releases (by decide)

/-- Counterexample to C1 as stated: a realisable schedule (one worker's
success drained before another worker's failure) makes ScanRepositories
return a non-empty item slice together with the error — the Go named return
values expose the partially collected items. -/
theorem scan_partial_items_counterexample :
    ValidArrivals (GetDefaultScanner.releaseOutcome forgePartial "test" 5) [rA, rB]
      [.item itemA, .failure "could not get releases for the repository b: forbidden"] ∧
    GetDefaultScanner.ScanRepositories forgePartial "test" 5
        [.item itemA, .failure "could not get releases for the repository b: forbidden"] =
      some ([itemA], some "could not scan repository for the account test: could not get releases for the repository b: forbidden") ∧
    ([itemA] : List ResultItem) ≠ [] :=
  ⟨⟨[rA, rB], List.Subperm.refl _,
    List.Forall₂.cons ⟨rfl, by decide⟩
      (List.Forall₂.cons
        (by decide : GetDefaultScanner.releaseOutcome forgePartial "test" 5 "b" =
          some (.error "could not get releases for the repository b: forbidden"))
        List.Forall₂.nil),
    fun _ => rfl⟩,
   by decide, by decide⟩

/-- C1 amended: whenever ScanRepositories surfaces a drained worker failure,
the item slice returned with the error holds exactly the (possibly
non-empty) items drained before that first failure; it is empty only when
the failure is drained first, or when the repository listing itself fails. -/
theorem scan_error_returns_drained_items (s : Scanner) (f : Forge) (user : String)
    (fuel : Nat) (reqs : List Request) (repositories : List Repository)
    (pre : List ResultItem) (e : String) (post : List Arrival)
    (hrepos : s.GetAllRepositories f user fuel = some (reqs, repositories, none))
    (hlen : pre.length < repositories.length) :
    s.ScanRepositories f user fuel (pre.map .item ++ .failure e :: post) =
      some (pre,
        some ("could not scan repository for the account " ++ user ++ ": " ++ e)) := by
  unfold Scanner.ScanRepositories
  rw [hrepos]
  dsimp only
  rw [scanCollect_failure user pre repositories.length [] e post hlen]
  simp

/-- Witness for scan_error_returns_drained_items: the failure drained first,
on a listing of two repositories. -/
theorem scan_error_returns_drained_items_witness :
    GetDefaultScanner.ScanRepositories forgeOK "test" 5 [.failure "boom"] =
      some ([], some "could not scan repository for the account test: boom") := by
  have h := scan_error_returns_drained_items GetDefaultScanner forgeOK "test" 5
    [Request.repoReq "test" 100 1] [rA, rB] [] "boom" [] (by decide) (by decide)
  simpa using h

/-- C2: when a worker failure is drained, the scan surfaces exactly one
error — the first failure drained — wrapped with the scanned account's name,
and the whole outcome is independent of every outcome scheduled after that
first failure: the coordinator returns immediately without waiting for other
workers' errors. -/
theorem scan_first_error_wins (s : Scanner) (f : Forge) (user : String)
    (fuel : Nat) (reqs : List Request) (repositories : List Repository)
    (pre : List ResultItem) (e : String) (post post2 : List Arrival)
    (hrepos : s.GetAllRepositories f user fuel = some (reqs, repositories, none))
    (hlen : pre.length < repositories.length) :
    (s.ScanRepositories f user fuel (pre.map .item ++ .failure e :: post)).map Prod.snd =
      some (some ("could not scan repository for the account " ++ user ++ ": " ++ e)) ∧
    s.ScanRepositories f user fuel (pre.map .item ++ .failure e :: post) =
      s.ScanRepositories f user fuel (pre.map .item ++ .failure e :: post2) := by
  have key : ∀ post3 : List Arrival,
      s.ScanRepositories f user fuel (pre.map .item ++ .failure e :: post3) =
        some (pre,
          some ("could not scan repository for the account " ++ user ++ ": " ++ e)) := by
    intro post3
    unfold Scanner.ScanRepositories
    rw [hrepos]
    dsimp only
    rw [scanCollect_failure user pre repositories.length [] e post3 hlen]
    simp
  refine ⟨?_, (key post).trans (key post2).symm⟩
  rw [key post]
  rfl

/-- Witness for scan_first_error_wins: one success drained, then a failure,
with a stray later outcome that the coordinator never inspects. -/
theorem scan_first_error_wins_witness :
    (GetDefaultScanner.ScanRepositories forgeOK "test" 5
        [.item itemA, .failure "boom", .failure "later"]).map Prod.snd =
      some (some "could not scan repository for the account test: boom") ∧
    GetDefaultScanner.ScanRepositories forgeOK "test" 5
        [.item itemA, .failure "boom", .failure "later"] =
      GetDefaultScanner.ScanRepositories forgeOK "test" 5
        [.item itemA, .failure "boom"] := by
  have h := scan_first_error_wins GetDefaultScanner forgeOK "test" 5
    [Request.repoReq "test" 100 1] [rA, rB] [itemA] "boom" [.failure "later"] []
    (by decide) (by decide)
  simpa using h

/-- In an all-success schedule every drained outcome is the canonical item
of its source repository, so the schedule is the mapped source list. -/
theorem forall2_items_eq_map (fetch : String → Option (Except String (List Release)))
    (rel : Repository → List Release) :
    ∀ (sources : List Repository) (arrivals : List Arrival),
      List.Forall₂ (matchesJob fetch) sources arrivals →
      (∀ a ∈ arrivals, a.isFailure = false) →
      (∀ r ∈ sources, fetch r.Name = some (.ok (rel r))) →
      arrivals = (sources.map (workerItem rel)).map .item := by
  intro sources arrivals h
  induction h with
  | nil =>
    intro _ _
    rfl
  | cons hhead htail ih =>
    rename_i r a rs as
    intro hnofail hrel
    have ha : a = .item (workerItem rel r) := by
      cases a with
      | failure e =>
        have hfa := hnofail (.failure e) (by simp)
        simp [Arrival.isFailure] at hfa
      | item it =>
        obtain ⟨hrepo, hfetch⟩ := hhead
        have hr := hrel r (by simp)
        have hrels : it.Releases = rel r := by
          have h2 := hfetch.symm.trans hr
          simpa using h2
        cases it
        simp only [workerItem] at hrepo hrels ⊢
        rw [hrepo, hrels]
    subst ha
    simp only [List.map_cons, List.cons.injEq, true_and]
    exact ih (fun a2 ha2 => hnofail a2 (by simp [ha2]))
      (fun r2 hr2 => hrel r2 (by simp [hr2]))

/-- A successful run: with a valid all-success schedule ScanRepositories
returns the merge-sorted items of some permutation of the listed
repositories. -/
theorem scan_success_run (s : Scanner) (f : Forge) (user : String) (fuel fuel2 : Nat)
    (reqs : List Request) (repositories : List Repository)
    (rel : Repository → List Release) (arrivals : List Arrival)
    (hrepos : s.GetAllRepositories f user fuel = some (reqs, repositories, none))
    (hvalid : ValidArrivals (s.releaseOutcome f user fuel2) repositories arrivals)
    (hnofail : ∀ a ∈ arrivals, a.isFailure = false)
    (hrel : ∀ r ∈ repositories, s.releaseOutcome f user fuel2 r.Name = some (.ok (rel r))) :
    ∃ sources : List Repository, sources.Perm repositories ∧
      s.ScanRepositories f user fuel arrivals =
        some ((sources.map (workerItem rel)).mergeSort resultItemLE, none) := by
  obtain ⟨sources, hsub, hall, hcomp⟩ := hvalid
  have hlen1 : arrivals.length = repositories.length := hcomp hnofail
  have hlen2 : sources.length = arrivals.length := hall.length_eq
  have hperm : sources.Perm repositories := hsub.perm_of_length_le (by omega)
  have hrel2 : ∀ r ∈ sources, s.releaseOutcome f user fuel2 r.Name = some (.ok (rel r)) :=
    fun r hr => hrel r (hperm.subset hr)
  have harr := forall2_items_eq_map (s.releaseOutcome f user fuel2) rel sources arrivals
    hall hnofail hrel2
  refine ⟨sources, hperm, ?_⟩
  unfold Scanner.ScanRepositories
  rw [hrepos]
  dsimp only
  rw [harr, scanCollect_items user (sources.map (workerItem rel)) repositories.length []
    (by simp only [List.length_map]; omega)]
  simp [Scanner.sortResultItems]

/-- C4: a successful scan of the N listed repositories returns exactly N
ResultItems — a permutation of the canonical items, so each listed
repository appears exactly once with exactly its own fetched releases — and
the total number of returned releases is the sum over the repositories. -/
theorem scan_success_complete (s : Scanner) (f : Forge) (user : String)
    (fuel fuel2 : Nat) (reqs : List Request) (repositories : List Repository)
    (rel : Repository → List Release) (arrivals : List Arrival)
    (hrepos : s.GetAllRepositories f user fuel = some (reqs, repositories, none))
    (hvalid : ValidArrivals (s.releaseOutcome f user fuel2) repositories arrivals)
    (hnofail : ∀ a ∈ arrivals, a.isFailure = false)
    (hrel : ∀ r ∈ repositories, s.releaseOutcome f user fuel2 r.Name = some (.ok (rel r))) :
    ∃ out, s.ScanRepositories f user fuel arrivals = some (out, none) ∧
      out.Perm (repositories.map (workerItem rel)) ∧
      out.length = repositories.length ∧
      (out.map (fun it => it.Releases.length)).sum =
        (repositories.map (fun r => (rel r).length)).sum ∧
      (∀ it ∈ out, it.Repository ∈ repositories ∧ it.Releases = rel it.Repository) := by
  obtain ⟨sources, hperm, hrun⟩ := scan_success_run s f user fuel fuel2 reqs repositories
    rel arrivals hrepos hvalid hnofail hrel
  have hp : ((sources.map (workerItem rel)).mergeSort resultItemLE).Perm
      (repositories.map (workerItem rel)) :=
    (List.mergeSort_perm _ _).trans (hperm.map _)
  refine ⟨_, hrun, hp, ?_, ?_, ?_⟩
  · rw [hp.length_eq, List.length_map]
  · rw [(hp.map (fun it => it.Releases.length)).sum_eq, List.map_map]
    rfl
  · intro it hit
    have hmem : it ∈ repositories.map (workerItem rel) := hp.subset hit
    obtain ⟨r, hr, heq⟩ := List.mem_map.mp hmem
    subst heq
    exact ⟨by simpa [workerItem] using hr, rfl⟩

/-- Witness for scan_success_complete: both repositories of forgeOK succeed
and are drained out of name order. -/
theorem scan_success_complete_witness :
    ∃ out, GetDefaultScanner.ScanRepositories forgeOK "test" 5
        [.item itemB, .item itemA] = some (out, none) ∧
      out.Perm ([rA, rB].map (workerItem relOK)) ∧
      out.length = ([rA, rB] : List Repository).length ∧
      (out.map (fun it => it.Releases.length)).sum =
        ([rA, rB].map (fun r => (relOK r).length)).sum ∧
      (∀ it ∈ out, it.Repository ∈ [rA, rB] ∧ it.Releases = relOK it.Repository) :=
  scan_success_complete GetDefaultScanner forgeOK "test" 5 5
    [Request.repoReq "test" 100 1] [rA, rB] relOK [.item itemB, .item itemA]
    (by decide)
    ⟨[rB, rA], (List.Perm.swap rA rB []).subperm,
      List.Forall₂.cons ⟨rfl, by decide⟩
        (List.Forall₂.cons ⟨rfl, by decide⟩ List.Forall₂.nil),
      fun _ => rfl⟩
    (by decide) (by decide)

/-- The sort comparison is transitive. -/
theorem resultItemLE_trans (a b c : ResultItem) :
    resultItemLE a b → resultItemLE b c → resultItemLE a c := by
  simp only [resultItemLE, decide_eq_true_eq]
  exact le_trans

/-- The sort comparison is total. -/
theorem resultItemLE_total (a b : ResultItem) : resultItemLE a b || resultItemLE b a := by
  simp only [resultItemLE, Bool.or_eq_true, decide_eq_true_eq]
  exact le_total _ _

/-- Two sorted permutations of each other whose sort keys are pairwise
distinct are equal. -/
theorem sorted_perm_nodup_eq {α β : Type} [LinearOrder β] (key : α → β) :
    ∀ (l1 l2 : List α), l1.Perm l2 →
      l1.Pairwise (fun a b => key a ≤ key b) →
      l2.Pairwise (fun a b => key a ≤ key b) →
      (l1.map key).Nodup → l1 = l2 := by
  intro l1
  induction l1 with
  | nil =>
    intro l2 hp _ _ _
    exact (hp.symm.eq_nil).symm
  | cons a t1 ih =>
    intro l2 hp hs1 hs2 hnd
    cases l2 with
    | nil => exact absurd hp.eq_nil (by simp)
    | cons b t2 =>
      rcases List.pairwise_cons.mp hs1 with ⟨ha1, hs1t⟩
      rcases List.pairwise_cons.mp hs2 with ⟨hb2, hs2t⟩
      rw [List.map_cons] at hnd
      rcases List.nodup_cons.mp hnd with ⟨hka, hndt⟩
      by_cases hab : a = b
      · subst hab
        have ht : t1.Perm t2 := hp.cons_inv
        rw [ih t2 ht hs1t hs2t hndt]
      · have hain : a ∈ t2 := by
          have hm : a ∈ b :: t2 := hp.subset (by simp)
          rcases List.mem_cons.mp hm with h | h
          · exact absurd h hab
          · exact h
        have hbin : b ∈ t1 := by
          have hm : b ∈ a :: t1 := hp.symm.subset (by simp)
          rcases List.mem_cons.mp hm with h | h
          · exact absurd h.symm hab
          · exact h
        have hk : key a = key b := le_antisymm (ha1 b hbin) (hb2 a hain)
        exact absurd (hk ▸ List.mem_map_of_mem key hbin) hka

/-- Counterexample to the second half of C5 as stated: with two listed
repositories sharing the full name x, two realisable delivery orders yield
two different outputs — the stable sort preserves delivery order among
equal-named items, so the final order does not depend on full names alone. -/
theorem scan_sort_duplicate_counterexample :
    ValidArrivals (GetDefaultScanner.releaseOutcome forgeDup "test" 5) [rXA, rXB]
      [.item itemXA, .item itemXB] ∧
    ValidArrivals (GetDefaultScanner.releaseOutcome forgeDup "test" 5) [rXA, rXB]
      [.item itemXB, .item itemXA] ∧
    GetDefaultScanner.ScanRepositories forgeDup "test" 5 [.item itemXA, .item itemXB] =
      some ([itemXA, itemXB], none) ∧
    GetDefaultScanner.ScanRepositories forgeDup "test" 5 [.item itemXB, .item itemXA] =
      some ([itemXB, itemXA], none) ∧
    ([itemXA, itemXB] : List ResultItem) ≠ [itemXB, itemXA] := by
  refine ⟨?_, ?_, ?_, ?_, by decide⟩
  · exact ⟨[rXA, rXB], List.Subperm.refl _,
      List.Forall₂.cons ⟨rfl, by decide⟩
        (List.Forall₂.cons ⟨rfl, by decide⟩ List.Forall₂.nil),
      fun _ => rfl⟩
  · exact ⟨[rXB, rXA], (List.Perm.swap rXA rXB []).subperm,
      List.Forall₂.cons ⟨rfl, by decide⟩
        (List.Forall₂.cons ⟨rfl, by decide⟩ List.Forall₂.nil),
      fun _ => rfl⟩
  · unfold Scanner.ScanRepositories
    rw [show GetDefaultScanner.GetAllRepositories forgeDup "test" 5 =
      some ([Request.repoReq "test" 100 1], [rXA, rXB], none) by decide]
    dsimp only
    rw [show scanCollect "test" ([rXA, rXB] : List Repository).length
        [.item itemXA, .item itemXB] [] = some ([itemXA, itemXB], none) by decide]
    dsimp only [Scanner.sortResultItems]
    rw [List.mergeSort_of_sorted
      (by simp [List.pairwise_cons, resultItemLE, itemXA, itemXB, rXA, rXB])]
  · unfold Scanner.ScanRepositories
    rw [show GetDefaultScanner.GetAllRepositories forgeDup "test" 5 =
      some ([Request.repoReq "test" 100 1], [rXA, rXB], none) by decide]
    dsimp only
    rw [show scanCollect "test" ([rXA, rXB] : List Repository).length
        [.item itemXB, .item itemXA] [] = some ([itemXB, itemXA], none) by decide]
    dsimp only [Scanner.sortResultItems]
    rw [List.mergeSort_of_sorted
      (by simp [List.pairwise_cons, resultItemLE, itemXA, itemXB, rXA, rXB])]

/-- C5 amended: a successful scan's output is sorted ascending by repository
full name (via a stable merge sort); when the listed full names are pairwise
distinct, the output is independent of the order in which workers delivered
their results.  With duplicated full names the stable sort preserves
delivery order among equal-named items, so the output may depend on it. -/
theorem scan_success_sorted (s : Scanner) (f : Forge) (user : String)
    (fuel fuel2 : Nat) (reqs : List Request) (repositories : List Repository)
    (rel : Repository → List Release) (arrivals arrivals2 : List Arrival)
    (hrepos : s.GetAllRepositories f user fuel = some (reqs, repositories, none))
    (hvalid : ValidArrivals (s.releaseOutcome f user fuel2) repositories arrivals)
    (hnofail : ∀ a ∈ arrivals, a.isFailure = false)
    (hvalid2 : ValidArrivals (s.releaseOutcome f user fuel2) repositories arrivals2)
    (hnofail2 : ∀ a ∈ arrivals2, a.isFailure = false)
    (hrel : ∀ r ∈ repositories, s.releaseOutcome f user fuel2 r.Name = some (.ok (rel r))) :
    (∃ out, s.ScanRepositories f user fuel arrivals = some (out, none) ∧
      out.Pairwise (fun a b => a.Repository.FullName ≤ b.Repository.FullName)) ∧
    ((repositories.map Repository.FullName).Nodup →
      s.ScanRepositories f user fuel arrivals =
        s.ScanRepositories f user fuel arrivals2) := by
  obtain ⟨src1, hp1, hrun1⟩ := scan_success_run s f user fuel fuel2 reqs repositories rel
    arrivals hrepos hvalid hnofail hrel
  obtain ⟨src2, hp2, hrun2⟩ := scan_success_run s f user fuel fuel2 reqs repositories rel
    arrivals2 hrepos hvalid2 hnofail2 hrel
  have hsorted1 : ((src1.map (workerItem rel)).mergeSort resultItemLE).Pairwise
      (fun a b => a.Repository.FullName ≤ b.Repository.FullName) :=
    (List.sorted_mergeSort resultItemLE_trans resultItemLE_total _).imp
      (fun h => by simpa [resultItemLE] using h)
  have hsorted2 : ((src2.map (workerItem rel)).mergeSort resultItemLE).Pairwise
      (fun a b => a.Repository.FullName ≤ b.Repository.FullName) :=
    (List.sorted_mergeSort resultItemLE_trans resultItemLE_total _).imp
      (fun h => by simpa [resultItemLE] using h)
  refine ⟨⟨_, hrun1, hsorted1⟩, fun hnodup => ?_⟩
  rw [hrun1, hrun2]
  have hpm : ((src1.map (workerItem rel)).mergeSort resultItemLE).Perm
      ((src2.map (workerItem rel)).mergeSort resultItemLE) :=
    (List.mergeSort_perm _ _).trans ((hp1.map _).trans
      ((hp2.map _).symm.trans (List.mergeSort_perm _ _).symm))
  have hkeys : (((src1.map (workerItem rel)).mergeSort resultItemLE).map
      (fun it => it.Repository.FullName)).Nodup := by
    have hkp := ((List.mergeSort_perm (src1.map (workerItem rel)) resultItemLE).trans
      (hp1.map (workerItem rel))).map (fun it => it.Repository.FullName)
    rw [hkp.nodup_iff, List.map_map]
    exact hnodup
  rw [sorted_perm_nodup_eq (fun it => it.Repository.FullName) _ _ hpm hsorted1 hsorted2 hkeys]

/-- Witness for scan_success_sorted on forgeOK with distinct full names and
two delivery orders. -/
theorem scan_success_sorted_witness :
    (∃ out, GetDefaultScanner.ScanRepositories forgeOK "test" 5
        [.item itemB, .item itemA] = some (out, none) ∧
      out.Pairwise (fun a b => a.Repository.FullName ≤ b.Repository.FullName)) ∧
    (([rA, rB].map Repository.FullName).Nodup →
      GetDefaultScanner.ScanRepositories forgeOK "test" 5 [.item itemB, .item itemA] =
        GetDefaultScanner.ScanRepositories forgeOK "test" 5 [.item itemA, .item itemB]) :=
  scan_success_sorted GetDefaultScanner forgeOK "test" 5 5 [Request.repoReq "test" 100 1]
    [rA, rB] relOK [.item itemB, .item itemA] [.item itemA, .item itemB]
    (by decide)
    ⟨[rB, rA], (List.Perm.swap rA rB []).subperm,
      List.Forall₂.cons ⟨rfl, by decide⟩
        (List.Forall₂.cons ⟨rfl, by decide⟩ List.Forall₂.nil),
      fun _ => rfl⟩
    (by decide)
    ⟨[rA, rB], List.Subperm.refl _,
      List.Forall₂.cons ⟨rfl, by decide⟩
        (List.Forall₂.cons ⟨rfl, by decide⟩ List.Forall₂.nil),
      fun _ => rfl⟩
    (by decide) (by decide)
